import Mathlib

/-!
Verification of the user-directory core of the `trabalho-final-automacao-api`
repository: a shallow embedding in Lean 4 of `src/models/User.js`,
`src/models/Database.js`, `src/repositories/UserRepository.js`,
`src/services/UserService.js`, the delete paths of the REST controller
(`UserController.deleteUser`) and the GraphQL resolver
(`Mutation.deleteUser`), together with proofs about registration, login,
profile update, deletion and id assignment.

Conventions of the embedding:
* JavaScript strings are `String`; absent (`undefined`) optional fields are
  `Option.none`; JavaScript falsiness of a string is the test `s = ""`.
* The in-memory `Map` of `Database.js` is a `List User` in insertion order
  together with the `currentId` counter; `Map.set` replaces in place when the
  key is present and appends otherwise.
* `bcryptjs` and `jsonwebtoken` are external libraries; they are modelled by
  deterministic functions (`bcryptHash`, `generateToken`) that keep exactly
  the interface contract the service relies on: `compare p (hash p) = true`,
  `compare p h` is string equality with the digest of `p`, and `jwt.sign` is
  a deterministic function of the payload and the issuance time (HS256
  signing of identical payloads at the same `iat` yields identical tokens).
* Timestamps (`new Date()`, the JWT `iat`) are an explicit `now : Nat`
  parameter threaded to the operations that read the clock.
-/

namespace UserDirectory

/-! ## JavaScript string primitives -/

/-- One character of `String.prototype.toLowerCase` (ASCII range; the emails
and usernames handled by the claims are ASCII). This is exactly Lean's
`Char.toLower`: uppercase ASCII letters shift by 32, all else unchanged. -/
def jsCharToLower (c : Char) : Char := Char.toLower c

/-- `String.prototype.toLowerCase`. -/
def jsToLower (s : String) : String := String.mk (s.data.map jsCharToLower)

/-- Leading-whitespace removal on a character list. -/
def dropLeading (l : List Char) : List Char := l.dropWhile Char.isWhitespace

/-- Trailing-whitespace removal on a character list. -/
def dropTrailing (l : List Char) : List Char :=
  ((l.reverse).dropWhile Char.isWhitespace).reverse

/-- `String.prototype.trim`: removes whitespace from both ends. -/
def jsTrim (s : String) : String := String.mk (dropTrailing (dropLeading s.data))

/-- The normalized form of an email: `email.toLowerCase().trim()`, the exact
expression used at `UserService.register` (storage) and `UserService.login`
(lookup). -/
def normalizeEmail (s : String) : String := jsTrim (jsToLower s)

/-- Test of the email regex `^[^\s@]+@[^\s@]+\.[^\s@]+$` of
`User.isValidEmail`: no whitespace anywhere, exactly one `@` with a nonempty
local part, and after the `@` a dot with nonempty character runs on both
sides. -/
def isValidEmail (s : String) : Bool :=
  let cs := s.data
  (cs.all (fun c => !c.isWhitespace)) &&
  (cs.count '@' == 1) &&
  (let localPart := cs.takeWhile (fun c => !(c == '@'))
   let domain := (cs.dropWhile (fun c => !(c == '@'))).drop 1
   (!localPart.isEmpty) &&
   (match domain with
    | [] => false
    | _ :: rest => (rest.dropLast).contains '.'))

/-! ## Data model: `User.js` -/

/-- A stored user record (`class User`); `password` holds the bcrypt digest
once the service has hashed the plaintext, `createdAt` the creation
timestamp. -/
structure User where
  id : Nat
  username : String
  email : String
  password : String
  createdAt : Nat
deriving Repr, DecidableEq

/-- The public projection `User.toSafeObject()`: every outward-facing result,
with the password digest removed. -/
structure SafeUser where
  id : Nat
  username : String
  email : String
  createdAt : Nat
deriving Repr, DecidableEq

def User.toSafeObject (u : User) : SafeUser :=
  { id := u.id, username := u.username, email := u.email, createdAt := u.createdAt }

/-- The argument of `UserService.register` / `User.validate`. -/
structure RegisterInput where
  username : String
  email : String
  password : String
deriving Repr, DecidableEq

/-- The result of `User.validate`. -/
structure ValidationResult where
  isValid : Bool
  errors : List String
deriving Repr, DecidableEq

def msgUsernameLen : String := "Username must be at least 3 characters long"

def msgEmailFormat : String := "Email must have a valid format"

def msgPasswordLen : String := "Password must be at least 6 characters long"

/-- `User.validate(userData)`: pushes one message per violated rule
(username trimmed length, email regex, password length) and is valid when no
message was pushed. `!userData.username` (the falsy check on a string field)
is the test `username = ""`, and likewise for the other two fields. -/
def User.validate (userData : RegisterInput) : ValidationResult :=
  let errors : List String :=
    (if userData.username = "" ∨ (jsTrim userData.username).length < 3
      then [msgUsernameLen] else []) ++
    (if userData.email = "" ∨ isValidEmail userData.email = false
      then [msgEmailFormat] else []) ++
    (if userData.password = "" ∨ userData.password.length < 6
      then [msgPasswordLen] else [])
  { isValid := errors.isEmpty, errors := errors }

/-! ## Store: `Database.js` (`class InMemoryDatabase`) -/

/-- The singleton in-memory store: a `Map` of users keyed by id (kept here as
the list of records in insertion order) and the id counter starting at 1. -/
structure InMemoryDatabase where
  users : List User
  currentId : Nat
deriving Repr, DecidableEq

/-- The store at process start: no users, `currentId = 1`. -/
def emptyDb : InMemoryDatabase := { users := [], currentId := 1 }

/-- `getNextId()`: returns `currentId++` (the pre-increment value). -/
def getNextId (db : InMemoryDatabase) : Nat × InMemoryDatabase :=
  (db.currentId, { db with currentId := db.currentId + 1 })

/-- `saveUser(user)`: `Map.set` keyed by `user.id` — replaces in place when
the id is present, appends otherwise. -/
def saveUser (user : User) (db : InMemoryDatabase) : InMemoryDatabase :=
  if db.users.any (fun u => u.id == user.id) then
    { db with users := db.users.map (fun u => if u.id == user.id then user else u) }
  else
    { db with users := db.users ++ [user] }

/-- `findUserById(id)`: `Map.get` or `null`. -/
def findUserById (id : Nat) (db : InMemoryDatabase) : Option User :=
  db.users.find? (fun u => u.id == id)

/-- `findUserByEmail(email)`: first record whose stored `email` equals the
argument exactly (the scan over `users.values()`). -/
def findUserByEmail (email : String) (db : InMemoryDatabase) : Option User :=
  db.users.find? (fun u => u.email == email)

/-- `findUserByUsername(username)`: first record with that exact username. -/
def findUserByUsername (username : String) (db : InMemoryDatabase) : Option User :=
  db.users.find? (fun u => u.username == username)

/-- `getAllUsers()`: all live records in insertion order. -/
def getAllUsers (db : InMemoryDatabase) : List User := db.users

/-- `deleteUser(id)` of the database: removes the record and reports whether
one was removed (`Map.delete`). -/
def dbDeleteUser (id : Nat) (db : InMemoryDatabase) : Bool × InMemoryDatabase :=
  (db.users.any (fun u => u.id == id),
   { db with users := db.users.filter (fun u => !(u.id == id)) })

/-- `getUserCount()`: `Map.size`. -/
def getUserCount (db : InMemoryDatabase) : Nat := db.users.length

/-! ## Credential service model (`bcryptjs`) -/

/-- Model of `bcrypt.hash(plaintext, 10)`: a deterministic injective digest.
The randomness of the salt is not modelled; the service only relies on
`compare p (hash p) = true` and on `compare` failing for a non-matching
plaintext, which this model realizes. -/
def bcryptHash (plaintext : String) : String := "$2a$10$" ++ plaintext

/-- Model of `bcrypt.compare(plaintext, digest)`: true exactly when the
digest is the digest of the plaintext; never raises. -/
def bcryptCompare (plaintext digest : String) : Bool := digest == bcryptHash plaintext

/-! ## Token service model (`jsonwebtoken`) -/

/-- Model of a signed JWT produced by `jwt.sign(payload, secret, opts)` in
`UserService.generateToken`: HS256 signing is a deterministic function of the
serialized claims, so a token is represented by its claim set — payload
`{id, username, email}`, issued-at `iat` (seconds), expiry `exp = iat + 30
minutes`, and issuer. Two tokens are the same string exactly when these
claims coincide. -/
structure JwtToken where
  id : Nat
  username : String
  email : String
  iat : Nat
  exp : Nat
  iss : String
deriving Repr, DecidableEq

/-- The configured expiry `JWT_EXPIRES_IN = '30m'`, in seconds. -/
def jwtExpiresInSeconds : Nat := 30 * 60

/-- `UserService.generateToken(user)` at clock time `now`. -/
def generateToken (user : User) (now : Nat) : JwtToken :=
  { id := user.id, username := user.username, email := user.email,
    iat := now, exp := now + jwtExpiresInSeconds, iss := "api-login-rest" }

/-! ## Repository: `UserRepository.js` -/

/-- `UserRepository.create`: draws the next id, builds the record with
`createdAt = new Date()` (the clock value `now`), and saves it. The caller
(`UserService.register`) has already trimmed the username, normalized the
email and hashed the password. -/
def repoCreate (now : Nat) (username email password : String)
    (db : InMemoryDatabase) : User × InMemoryDatabase :=
  let (id, db1) := getNextId db
  let user : User :=
    { id := id, username := username, email := email, password := password,
      createdAt := now }
  (user, saveUser user db1)

/-- The argument of `UserService.updateUserProfile`: each field may be absent
(`undefined`) or present (possibly the empty string). -/
structure UpdateInput where
  username : Option String
  email : Option String
  password : Option String
deriving Repr, DecidableEq

/-- The JavaScript expression `supplied || fallback` on an optional string
field: the fallback is used when the field is absent or falsy (empty). -/
def jsOrElse (supplied : Option String) (fallback : String) : String :=
  match supplied with
  | none => fallback
  | some s => if s = "" then fallback else s

/-- `UserRepository.update(id, userData)`: re-reads the record, merges each
supplied truthy field over the existing value (`userData.f ||
existingUser.f`), keeps `createdAt`, and saves. -/
def repoUpdate (id : Nat) (userData : UpdateInput) (db : InMemoryDatabase) :
    Except String (User × InMemoryDatabase) :=
  match findUserById id db with
  | none => .error "Erro ao atualizar usuário: Usuário não encontrado"
  | some existingUser =>
    let updatedUser : User :=
      { id := id,
        username := jsOrElse userData.username existingUser.username,
        email := jsOrElse userData.email existingUser.email,
        password := jsOrElse userData.password existingUser.password,
        createdAt := existingUser.createdAt }
    .ok (updatedUser, saveUser updatedUser db)

/-- `UserRepository.delete(id)`: looks the record up (raising its not-found
message when absent), removes it from the store, and returns the removed
record — or `null` in the dead branch where `Map.delete` reports nothing
removed. -/
def repoDelete (id : Nat) (db : InMemoryDatabase) :
    Except String (Option User × InMemoryDatabase) :=
  match findUserById id db with
  | none => .error "Erro ao remover usuário: Usuário não encontrado"
  | some user =>
    let (deleted, db1) := dbDeleteUser id db
    .ok (if deleted then some user else none, db1)

/-! ## Directory service: `UserService.js` -/

/-- The `{ user, token }` payload returned by `register` and `login`. -/
structure AuthResult where
  user : SafeUser
  token : JwtToken
deriving Repr, DecidableEq

/-- `UserService.register(userData)` at clock time `now`. Validates the
shape, checks the raw submitted email then the raw submitted username for
conflicts, hashes the password, creates the record (trimmed username,
lowercased-and-trimmed email) and signs a token. Every thrown message is
re-wrapped by the surrounding catch as `Error registering user: ...`. -/
def register (now : Nat) (userData : RegisterInput) (db : InMemoryDatabase) :
    Except String (AuthResult × InMemoryDatabase) :=
  let validation := User.validate userData
  if validation.isValid = false then
    .error ("Error registering user: Invalid data: " ++
      String.intercalate ", " validation.errors)
  else if (findUserByEmail userData.email db).isSome then
    .error "Error registering user: Email is already in use"
  else if (findUserByUsername userData.username db).isSome then
    .error "Error registering user: Username is already in use"
  else
    let hashedPassword := bcryptHash userData.password
    let (newUser, db1) :=
      repoCreate now (jsTrim userData.username) (normalizeEmail userData.email)
        hashedPassword db
    .ok ({ user := newUser.toSafeObject, token := generateToken newUser now }, db1)

/-- The argument of `UserService.login`. -/
structure LoginInput where
  email : String
  password : String
deriving Repr, DecidableEq

/-- `UserService.login(credentials)` at clock time `now`: requires both
fields truthy, looks the user up by the normalized email, verifies the
password, and mints a fresh token. The absent-user case and the failed
verification case throw the same `Invalid credentials` message, re-wrapped by
the catch as `Error during login: ...`. -/
def login (now : Nat) (credentials : LoginInput) (db : InMemoryDatabase) :
    Except String AuthResult :=
  if credentials.email = "" ∨ credentials.password = "" then
    .error "Error during login: Email and password are required"
  else
    match findUserByEmail (normalizeEmail credentials.email) db with
    | none => .error "Error during login: Invalid credentials"
    | some user =>
      if bcryptCompare credentials.password user.password = false then
        .error "Error during login: Invalid credentials"
      else
        .ok { user := user.toSafeObject, token := generateToken user now }

/-- `UserService.getUserById(id)`. -/
def getUserById (id : Nat) (db : InMemoryDatabase) : Except String SafeUser :=
  match findUserById id db with
  | none => .error "Error fetching user: User not found"
  | some user => .ok user.toSafeObject

/-- `UserService.getAllUsers()`. -/
def serviceGetAllUsers (db : InMemoryDatabase) : List SafeUser :=
  (getAllUsers db).map User.toSafeObject

/-- The guard `updateData.f && updateData.f !== existingUser.f` of
`UserService.updateUserProfile`: a supplied, truthy value different from the
current one. -/
def wantsChange (supplied : Option String) (current : String) : Bool :=
  match supplied with
  | none => false
  | some s => !(s == "") && !(s == current)

/-- The `if (updateData.password) { updateData.password = await bcrypt.hash(...) }`
step: a truthy supplied password is replaced by its digest, an absent or
empty one is left as is. -/
def hashIfTruthy (supplied : Option String) : Option String :=
  match supplied with
  | none => none
  | some p => if p = "" then some p else some (bcryptHash p)

/-- `UserService.updateUserProfile(id, updateData)`: requires the user to
exist, re-checks uniqueness for a supplied changed email (raw comparison)
then username, hashes a truthy supplied password, and delegates the merge to
`UserRepository.update`. -/
def updateUserProfile (id : Nat) (updateData : UpdateInput)
    (db : InMemoryDatabase) : Except String (SafeUser × InMemoryDatabase) :=
  match findUserById id db with
  | none => .error "Error updating user: User not found"
  | some existingUser =>
    if wantsChange updateData.email existingUser.email &&
        (findUserByEmail (updateData.email.getD "") db).isSome then
      .error "Error updating user: Email is already in use"
    else if wantsChange updateData.username existingUser.username &&
        (findUserByUsername (updateData.username.getD "") db).isSome then
      .error "Error updating user: Username is already in use"
    else
      let updateData1 := { updateData with password := hashIfTruthy updateData.password }
      match repoUpdate id updateData1 db with
      | .error e => .error ("Error updating user: " ++ e)
      | .ok (updatedUser, db1) => .ok (updatedUser.toSafeObject, db1)

/-- `UserService.deleteUser(id)`: its single parameter is the target id —
the service itself has no notion of who requested the deletion. -/
def serviceDeleteUser (id : Nat) (db : InMemoryDatabase) :
    Except String (SafeUser × InMemoryDatabase) :=
  match repoDelete id db with
  | .error e => .error ("Error deleting user: " ++ e)
  | .ok (none, _) => .error "Error deleting user: User not found"
  | .ok (some user, db1) => .ok (user.toSafeObject, db1)

/-- The result of `UserService.getStats()` at clock time `now`. -/
structure Stats where
  totalUsers : Nat
  timestamp : Nat
deriving Repr, DecidableEq

/-- `UserService.getStats()`. -/
def getStats (now : Nat) (db : InMemoryDatabase) : Stats :=
  { totalUsers := getUserCount db, timestamp := now }

/-! ## Adapters: the delete paths of the REST controller and of the GraphQL
resolver. Both run behind the authentication middleware, so the requester id
(`req.user.id` respectively `context.user.id`) is available; the target id
has already been parsed from the route parameter / argument (the non-numeric
branch is outside the model). -/

/-- Outcome of `UserController.deleteUser` (REST `DELETE /api/users/:id`). -/
inductive RestDeleteOutcome where
  | selfDeleteNotAllowed
  | deleted (user : SafeUser)
  | deleteFailed (message : String)
deriving Repr, DecidableEq

/-- `UserController.deleteUser`: rejects with `SELF_DELETE_NOT_ALLOWED`
(`Cannot delete your own user account`) when the target equals the
authenticated requester, otherwise delegates to `UserService.deleteUser`. -/
def controllerDeleteUser (requesterId targetId : Nat) (db : InMemoryDatabase) :
    RestDeleteOutcome × InMemoryDatabase :=
  if targetId == requesterId then
    (.selfDeleteNotAllowed, db)
  else
    match serviceDeleteUser targetId db with
    | .error e => (.deleteFailed e, db)
    | .ok (user, db1) => (.deleted user, db1)

/-- Outcome of the GraphQL `deleteUser` mutation resolver. -/
inductive GraphqlDeleteOutcome where
  | forbiddenSelfDelete
  | deleted (user : SafeUser)
  | failed (message : String)
deriving Repr, DecidableEq

/-- `error.message.includes(needle)` on the service's thrown message. -/
def jsIncludes (haystack needle : String) : Bool :=
  decide (2 ≤ (haystack.splitOn needle).length)

/-- The GraphQL resolver `Mutation.deleteUser`: throws `ForbiddenError`
(`Cannot delete your own account`) when the target equals the authenticated
user, otherwise delegates to `UserService.deleteUser` and re-maps a
not-found message. -/
def graphqlDeleteUser (currentUserId targetId : Nat) (db : InMemoryDatabase) :
    GraphqlDeleteOutcome × InMemoryDatabase :=
  if currentUserId == targetId then
    (.forbiddenSelfDelete, db)
  else
    match serviceDeleteUser targetId db with
    | .error e =>
      (.failed (if jsIncludes e "User not found" then "User not found"
                else "Error deleting user: " ++ e), db)
    | .ok (user, db1) => (.deleted user, db1)

/-! ## Operation sequences over the Directory Service

The mutating Directory Service operations (`register`, `updateProfile`,
`deleteUser`), used to state the reachability-style invariants; `clear()` is
deliberately absent, as in the claims. A failed operation leaves the store
untouched (the JavaScript methods throw before or without mutating). -/

inductive Op where
  | opRegister (now : Nat) (input : RegisterInput)
  | opUpdate (id : Nat) (upd : UpdateInput)
  | opDelete (id : Nat)
deriving Repr

/-- The store after one Directory Service call (the thrown-error cases keep
the store unchanged). -/
def applyOp (db : InMemoryDatabase) : Op → InMemoryDatabase
  | .opRegister now input =>
    match register now input db with
    | .ok (_, db1) => db1
    | .error _ => db
  | .opUpdate id upd =>
    match updateUserProfile id upd db with
    | .ok (_, db1) => db1
    | .error _ => db
  | .opDelete id =>
    match serviceDeleteUser id db with
    | .ok (_, db1) => db1
    | .error _ => db

/-- The store after a sequence of Directory Service calls. -/
def runOps (db : InMemoryDatabase) (ops : List Op) : InMemoryDatabase :=
  ops.foldl applyOp db

/-- The ids handed out by `getNextId()` during one operation: a successful
`register` draws exactly one id (the current counter value), every other
path draws none. -/
def opAssignedIds (db : InMemoryDatabase) : Op → List Nat
  | .opRegister now input =>
    match register now input db with
    | .ok _ => [db.currentId]
    | .error _ => []
  | .opUpdate _ _ => []
  | .opDelete _ => []

/-- All ids handed out by `getNextId()` along a sequence of calls, in
order. -/
def runAssignedIds (db : InMemoryDatabase) : List Op → List Nat
  | [] => []
  | op :: ops => opAssignedIds db op ++ runAssignedIds (applyOp db op) ops

/-! ## Derived shapes and rule predicates -/

/-- The record a successful `register` stores: the next id, the trimmed
username, the normalized email, the digest, the creation time. -/
def registeredUser (now : Nat) (input : RegisterInput) (db : InMemoryDatabase) : User :=
  { id := db.currentId, username := jsTrim input.username,
    email := normalizeEmail input.email, password := bcryptHash input.password,
    createdAt := now }

/-- The store after a successful `register`. -/
def registerSuccessState (now : Nat) (input : RegisterInput)
    (db : InMemoryDatabase) : InMemoryDatabase :=
  saveUser (registeredUser now input db) { db with currentId := db.currentId + 1 }

/-- Recognizer for the `ValidationError` outcome of `register`: the thrown
message that starts `Invalid data:` (after the registration wrapper), as
opposed to the conflict messages or success. -/
def isInvalidDataErrorB (r : Except String (AuthResult × InMemoryDatabase)) : Bool :=
  match r with
  | .error msg => ("Error registering user: Invalid data: ").data.isPrefixOf msg.data
  | .ok _ => false

/-- The username charset rule `/^[a-zA-Z0-9_]+$/` that the spec attributes to
`register` (it appears only in the REST middleware `validateRegister`). -/
def usernameAlnumUnderscore (s : String) : Bool :=
  !(s.data.isEmpty) && s.data.all (fun c => c.isAlphanum || c == '_')

/-- The password complexity rule `(?=.*[a-z])(?=.*[A-Z])(?=.*\d)` that the
spec attributes to `register` (it appears only in the REST middleware
`validateRegister`). -/
def passwordHasRequiredClasses (s : String) : Bool :=
  s.data.any Char.isLower && s.data.any Char.isUpper && s.data.any Char.isDigit

/-! ## Helper lemmas -/

theorem charToNatNe {a b : Char} (h : a.toNat ≠ b.toNat) : a ≠ b :=
  fun heq => h (by rw [heq])

theorem charOfNatToNat {n : Nat} (hv : n.isValidChar) : (Char.ofNat n).toNat = n := by
  unfold Char.ofNat
  rw [dif_pos hv]
  rfl

theorem jsCharToLower_idem (c : Char) : jsCharToLower (jsCharToLower c) = jsCharToLower c := by
  unfold jsCharToLower Char.toLower
  by_cases h : c.toNat ≥ 65 ∧ c.toNat ≤ 90
  · rw [if_pos h]
    have hv : Nat.isValidChar (c.toNat + 32) := by left; omega
    rw [if_neg (by rw [charOfNatToNat hv]; omega)]
  · rw [if_neg h, if_neg h]

theorem dropWhileWs_idem (l : List Char) :
    (l.dropWhile Char.isWhitespace).dropWhile Char.isWhitespace =
      l.dropWhile Char.isWhitespace := by
  induction l with
  | nil => rfl
  | cons x xs ih =>
    by_cases hx : x.isWhitespace
    · simpa [List.dropWhile_cons, hx] using ih
    · simp [List.dropWhile_cons, hx]

theorem dropLeading_idem (l : List Char) : dropLeading (dropLeading l) = dropLeading l :=
  dropWhileWs_idem l

theorem dropTrailing_idem (l : List Char) : dropTrailing (dropTrailing l) = dropTrailing l := by
  unfold dropTrailing
  rw [List.reverse_reverse, dropWhileWs_idem]

theorem dropLeading_dropTrailing (m : List Char) (hm : dropLeading m = m) :
    dropLeading (dropTrailing m) = dropTrailing m := by
  have hsplit := List.takeWhile_append_dropWhile Char.isWhitespace m.reverse
  set t := m.reverse.takeWhile Char.isWhitespace with ht
  have hmErr : m = dropTrailing m ++ t.reverse := by
    unfold dropTrailing
    calc m = m.reverse.reverse := (List.reverse_reverse m).symm
    _ = (t ++ m.reverse.dropWhile Char.isWhitespace).reverse := by rw [hsplit]
    _ = (m.reverse.dropWhile Char.isWhitespace).reverse ++ t.reverse := by
          rw [List.reverse_append]
  cases hdt : dropTrailing m with
  | nil => rfl
  | cons c cs =>
    have hcm : m = c :: (cs ++ t.reverse) := by rw [hmErr, hdt]; simp
    have hcws : c.isWhitespace = false := by
      by_contra hcw
      have hcw1 : c.isWhitespace = true := by
        revert hcw; cases c.isWhitespace <;> simp
      rw [hcm] at hm
      unfold dropLeading at hm
      rw [List.dropWhile_cons, if_pos (by simp [hcw1])] at hm
      have hlen := congrArg List.length hm
      have hsub := (List.dropWhile_sublist (p := Char.isWhitespace)
        (l := cs ++ t.reverse)).length_le
      simp [List.length_append, List.length_reverse] at hlen hsub
      omega
    unfold dropLeading
    rw [List.dropWhile_cons, if_neg (by simp [hcws])]

theorem trimChars_eq (l : List Char) : dropTrailing (dropLeading l) =
    (jsTrim (String.mk l)).data := rfl

theorem jsTrim_idem (s : String) : jsTrim (jsTrim s) = jsTrim s := by
  unfold jsTrim
  have h1 : dropLeading (dropTrailing (dropLeading s.data)) =
      dropTrailing (dropLeading s.data) :=
    dropLeading_dropTrailing _ (dropLeading_idem s.data)
  show String.mk (dropTrailing (dropLeading (dropTrailing (dropLeading s.data)))) = _
  rw [h1, dropTrailing_idem]

theorem mem_of_mem_dropTrailing {c : Char} {l : List Char}
    (h : c ∈ dropTrailing l) : c ∈ l := by
  unfold dropTrailing at h
  rw [List.mem_reverse] at h
  have := (List.dropWhile_sublist (p := Char.isWhitespace) (l := l.reverse)).mem h
  rwa [List.mem_reverse] at this

theorem mem_of_mem_dropLeading {c : Char} {l : List Char}
    (h : c ∈ dropLeading l) : c ∈ l :=
  (List.dropWhile_sublist (p := Char.isWhitespace) (l := l)).mem h

theorem jsToLower_fix (l : List Char) (h : ∀ c ∈ l, jsCharToLower c = c) :
    l.map jsCharToLower = l := by
  rw [List.map_congr_left h]
  simp

theorem normalizeEmail_idem (s : String) :
    normalizeEmail (normalizeEmail s) = normalizeEmail s := by
  unfold normalizeEmail
  have hlow : jsToLower (jsTrim (jsToLower s)) = jsTrim (jsToLower s) := by
    unfold jsToLower jsTrim
    show String.mk (List.map jsCharToLower
      (dropTrailing (dropLeading (String.mk (s.data.map jsCharToLower)).data))) = _
    rw [jsToLower_fix]
    intro c hc
    have hc1 : c ∈ (String.mk (s.data.map jsCharToLower)).data :=
      mem_of_mem_dropLeading (mem_of_mem_dropTrailing hc)
    have hc2 : c ∈ s.data.map jsCharToLower := hc1
    rcases List.mem_map.mp hc2 with ⟨d, _, hd⟩
    rw [← hd]
    exact jsCharToLower_idem d
  rw [hlow, jsTrim_idem]

theorem findUserById_mem {id : Nat} {db : InMemoryDatabase} {u : User}
    (h : findUserById id db = some u) : u ∈ db.users ∧ u.id = id := by
  unfold findUserById at h
  refine ⟨List.mem_of_find?_eq_some h, ?_⟩
  have := List.find?_some h
  simpa using this

theorem findUserByEmail_mem {e : String} {db : InMemoryDatabase} {u : User}
    (h : findUserByEmail e db = some u) : u ∈ db.users ∧ u.email = e := by
  unfold findUserByEmail at h
  refine ⟨List.mem_of_find?_eq_some h, ?_⟩
  have := List.find?_some h
  simpa using this

theorem findUserByEmail_eq_none {e : String} {db : InMemoryDatabase}
    (h : ∀ u ∈ db.users, u.email ≠ e) : findUserByEmail e db = none := by
  unfold findUserByEmail
  exact List.find?_eq_none.mpr (fun u hu => by simpa using h u hu)

theorem findUserByUsername_eq_none {n : String} {db : InMemoryDatabase}
    (h : ∀ u ∈ db.users, u.username ≠ n) : findUserByUsername n db = none := by
  unfold findUserByUsername
  exact List.find?_eq_none.mpr (fun u hu => by simpa using h u hu)

theorem findUserById_eq_none {id : Nat} {db : InMemoryDatabase}
    (h : ∀ u ∈ db.users, u.id ≠ id) : findUserById id db = none := by
  unfold findUserById
  exact List.find?_eq_none.mpr (fun u hu => by simpa using h u hu)

theorem find?_map_replace (x : User) (q : User → Bool) (hq : q x = true) :
    ∀ (l : List User), (∀ v ∈ l, q v = false) →
      l.any (fun u => u.id == x.id) = true →
      (l.map (fun u => if u.id == x.id then x else u)).find? q = some x := by
  intro l
  induction l with
  | nil => intro _ hany; simp at hany
  | cons y ys ih =>
    intro hall hany
    by_cases hy : (y.id == x.id) = true
    · rw [List.map_cons, if_pos hy, List.find?_cons_of_pos _ hq]
    · have hyq : q y = false := hall y (by simp)
      rw [List.map_cons, if_neg hy, List.find?_cons_of_neg _ (by simp [hyq])]
      have hany1 : ys.any (fun u => u.id == x.id) = true := by
        rcases List.any_eq_true.mp hany with ⟨v, hv, hvq⟩
        rcases List.mem_cons.mp hv with rfl | hvys
        · exact absurd hvq hy
        · exact List.any_eq_true.mpr ⟨v, hvys, hvq⟩
      exact ih (fun v hv => hall v (by simp [hv])) hany1

theorem find?_map_replace_id (x : User) :
    ∀ (l : List User), l.any (fun u => u.id == x.id) = true →
      (l.map (fun u => if u.id == x.id then x else u)).find?
        (fun u => u.id == x.id) = some x := by
  intro l
  induction l with
  | nil => intro hany; simp at hany
  | cons y ys ih =>
    intro hany
    by_cases hy : (y.id == x.id) = true
    · rw [List.map_cons, if_pos hy,
        List.find?_cons_of_pos (p := fun (u : User) => u.id == x.id) _ (by simp)]
    · rw [List.map_cons, if_neg hy,
        List.find?_cons_of_neg (p := fun (u : User) => u.id == x.id) _ hy]
      have hany1 : ys.any (fun u => u.id == x.id) = true := by
        rcases List.any_eq_true.mp hany with ⟨v, hv, hvq⟩
        rcases List.mem_cons.mp hv with rfl | hvys
        · exact absurd hvq hy
        · exact List.any_eq_true.mpr ⟨v, hvys, hvq⟩
      exact ih hany1

theorem find?_saveUser {q : User → Bool} {x : User} {db : InMemoryDatabase}
    (hq : q x = true) (hall : ∀ v ∈ db.users, q v = false) :
    (saveUser x db).users.find? q = some x := by
  unfold saveUser
  by_cases h : db.users.any (fun u => u.id == x.id)
  · rw [if_pos h]
    exact find?_map_replace x q hq db.users hall h
  · rw [if_neg h]
    simp only
    rw [List.find?_append, List.find?_eq_none.mpr (fun v hv => by simp [hall v hv]),
      Option.none_or, List.find?_cons_of_pos _ hq]

theorem findUserById_saveUser_self (x : User) (db : InMemoryDatabase) :
    findUserById x.id (saveUser x db) = some x := by
  unfold findUserById saveUser
  by_cases h : db.users.any (fun u => u.id == x.id)
  · rw [if_pos h]
    exact find?_map_replace_id x db.users h
  · rw [if_neg h]
    simp only
    rw [List.any_eq_true] at h
    push_neg at h
    rw [List.find?_append, List.find?_eq_none.mpr (fun v hv => by simpa using h v hv),
      Option.none_or, List.find?_cons_of_pos (p := fun (u : User) => u.id == x.id) _ (by simp)]

theorem mem_saveUser {v x : User} {db : InMemoryDatabase}
    (h : v ∈ (saveUser x db).users) : v = x ∨ v ∈ db.users := by
  unfold saveUser at h
  by_cases hb : db.users.any (fun u => u.id == x.id)
  · rw [if_pos hb] at h
    rcases List.mem_map.mp h with ⟨w, hw, hwv⟩
    by_cases hwx : w.id == x.id
    · rw [if_pos hwx] at hwv; exact Or.inl hwv.symm
    · rw [if_neg hwx] at hwv; exact Or.inr (hwv ▸ hw)
  · rw [if_neg hb] at h
    rcases List.mem_append.mp h with hl | hr
    · exact Or.inr hl
    · simp at hr; exact Or.inl hr

theorem saveUser_currentId (x : User) (db : InMemoryDatabase) :
    (saveUser x db).currentId = db.currentId := by
  unfold saveUser
  split <;> rfl

theorem validate_errors (input : RegisterInput) : (User.validate input).errors =
    (if (jsTrim input.username).length < 3 then [msgUsernameLen] else []) ++
    (if isValidEmail input.email = false then [msgEmailFormat] else []) ++
    (if input.password.length < 6 then [msgPasswordLen] else []) := by
  have hU : (input.username = "" ∨ (jsTrim input.username).length < 3) ↔
      (jsTrim input.username).length < 3 := by
    constructor
    · rintro (h | h)
      · rw [h]; decide
      · exact h
    · exact Or.inr
  have hE : (input.email = "" ∨ isValidEmail input.email = false) ↔
      isValidEmail input.email = false := by
    constructor
    · rintro (h | h)
      · rw [h]; decide
      · exact h
    · exact Or.inr
  have hP : (input.password = "" ∨ input.password.length < 6) ↔
      input.password.length < 6 := by
    constructor
    · rintro (h | h)
      · rw [h]; decide
      · exact h
    · exact Or.inr
  unfold User.validate
  simp only
  rw [if_congr hU rfl rfl, if_congr hE rfl rfl, if_congr hP rfl rfl]

theorem validate_isValid (input : RegisterInput) :
    (User.validate input).isValid = true ↔
      (3 ≤ (jsTrim input.username).length ∧ isValidEmail input.email = true ∧
        6 ≤ input.password.length) := by
  have hv : (User.validate input).isValid = (User.validate input).errors.isEmpty := rfl
  rw [hv, validate_errors]
  by_cases h1 : (jsTrim input.username).length < 3 <;>
    by_cases h2 : isValidEmail input.email = false <;>
      by_cases h3 : input.password.length < 6 <;>
        simp [h1, h2, h3, msgUsernameLen, msgEmailFormat, msgPasswordLen] <;>
          omega

/-- C7: `User.validate` reports every violated rule at once — each of the
three messages is in the error list exactly when its rule is violated,
independently of the other rules — and on the concrete input
`{username: "ab", email: "bad", password: "123"}` the validation lists the
three violations simultaneously and `register` surfaces all of them in one
`ValidationError`, on every store state. -/
theorem register_reports_all_violations (input : RegisterInput) (now : Nat)
    (db : InMemoryDatabase) :
    (msgUsernameLen ∈ (User.validate input).errors ↔
      (jsTrim input.username).length < 3) ∧
    (msgEmailFormat ∈ (User.validate input).errors ↔
      isValidEmail input.email = false) ∧
    (msgPasswordLen ∈ (User.validate input).errors ↔
      input.password.length < 6) ∧
    (User.validate { username := "ab", email := "bad", password := "123" }).errors =
      [msgUsernameLen, msgEmailFormat, msgPasswordLen] ∧
    register now { username := "ab", email := "bad", password := "123" } db =
      .error ("Error registering user: Invalid data: " ++
        String.intercalate ", " [msgUsernameLen, msgEmailFormat, msgPasswordLen]) := by
  have hd12 : msgUsernameLen ≠ msgEmailFormat := by decide
  have hd13 : msgUsernameLen ≠ msgPasswordLen := by decide
  have hd23 : msgEmailFormat ≠ msgPasswordLen := by decide
  refine ⟨?_, ?_, ?_, by decide, ?_⟩
  · rw [validate_errors]
    by_cases h1 : (jsTrim input.username).length < 3 <;>
      by_cases h2 : isValidEmail input.email = false <;>
        by_cases h3 : input.password.length < 6 <;>
          simp [h1, h2, h3, hd12, hd13]
  · rw [validate_errors]
    by_cases h1 : (jsTrim input.username).length < 3 <;>
      by_cases h2 : isValidEmail input.email = false <;>
        by_cases h3 : input.password.length < 6 <;>
          simp [h1, h2, h3, hd12.symm, hd23]
  · rw [validate_errors]
    by_cases h1 : (jsTrim input.username).length < 3 <;>
      by_cases h2 : isValidEmail input.email = false <;>
        by_cases h3 : input.password.length < 6 <;>
          simp [h1, h2, h3, hd13.symm, hd23.symm]
  · rfl

/-- C7 concrete instance: on the scenario input, applying the theorem at the
empty store yields the three-violation `ValidationError`. -/
theorem register_reports_all_violations_witness :
    register 0 { username := "ab", email := "bad", password := "123" } emptyDb =
      .error ("Error registering user: Invalid data: " ++
        String.intercalate ", " [msgUsernameLen, msgEmailFormat, msgPasswordLen]) :=
  (register_reports_all_violations
    { username := "ab", email := "bad", password := "123" } 0 emptyDb).2.2.2.2

/-- C5: against one and the same store state, a login with an email bound to
no live user and a login with a live user's email but a failing password
produce the very same `InvalidCredentials` failure — the identical thrown
message — revealing nothing about which check failed. -/
theorem login_failure_indistinguishable (now1 now2 : Nat) (db : InMemoryDatabase)
    (c1 c2 : LoginInput) (u : User)
    (h1e : c1.email ≠ "") (h1p : c1.password ≠ "")
    (h2e : c2.email ≠ "") (h2p : c2.password ≠ "")
    (habsent : findUserByEmail (normalizeEmail c1.email) db = none)
    (hfound : findUserByEmail (normalizeEmail c2.email) db = some u)
    (hbad : bcryptCompare c2.password u.password = false) :
    login now1 c1 db = .error "Error during login: Invalid credentials" ∧
    login now2 c2 db = .error "Error during login: Invalid credentials" ∧
    login now1 c1 db = login now2 c2 db := by
  have e1 : login now1 c1 db = .error "Error during login: Invalid credentials" := by
    unfold login
    rw [if_neg (by rintro (h | h); exacts [h1e h, h1p h]), habsent]
  have e2 : login now2 c2 db = .error "Error during login: Invalid credentials" := by
    unfold login
    rw [if_neg (by rintro (h | h); exacts [h2e h, h2p h]), hfound]
    simp only [hbad, if_pos]
  exact ⟨e1, e2, e1.trans e2.symm⟩

/-- C5 witness: a store holding exactly the user `alice` (digest of
`Abcdef1`); an unknown email and a wrong password for `alice` fail with the
same message. -/
theorem login_failure_indistinguishable_witness :
    login 3 { email := "nobody@x.com", password := "Zzzzz9z" }
        { users := [{ id := 1, username := "alice123", email := "a@x.com",
                      password := bcryptHash "Abcdef1", createdAt := 0 }],
          currentId := 2 } =
      .error "Error during login: Invalid credentials" ∧
    login 3 { email := "a@x.com", password := "WrongPass9" }
        { users := [{ id := 1, username := "alice123", email := "a@x.com",
                      password := bcryptHash "Abcdef1", createdAt := 0 }],
          currentId := 2 } =
      .error "Error during login: Invalid credentials" ∧
    login 3 { email := "nobody@x.com", password := "Zzzzz9z" }
        { users := [{ id := 1, username := "alice123", email := "a@x.com",
                      password := bcryptHash "Abcdef1", createdAt := 0 }],
          currentId := 2 } =
      login 3 { email := "a@x.com", password := "WrongPass9" }
        { users := [{ id := 1, username := "alice123", email := "a@x.com",
                      password := bcryptHash "Abcdef1", createdAt := 0 }],
          currentId := 2 } :=
  login_failure_indistinguishable 3 3 _ _ _
    { id := 1, username := "alice123", email := "a@x.com",
      password := bcryptHash "Abcdef1", createdAt := 0 }
    (by decide) (by decide) (by decide) (by decide) (by decide) (by decide) (by decide)

theorem saveUser_users_length {x : User} {db : InMemoryDatabase}
    (h : db.users.any (fun u => u.id == x.id) = true) :
    (saveUser x db).users.length = db.users.length := by
  unfold saveUser
  rw [if_pos h]
  simp

/-- C10: a profile update whose `username`, `email` and `password` fields are
each absent or the empty string succeeds, leaves every field of the target
user at its prior value (in particular no field is ever set to the empty
string and an empty password is never re-hashed), and stores the unchanged
record back. -/
theorem updateProfile_empty_fields_noop (id : Nat) (db : InMemoryDatabase)
    (pre : User) (u e p : Option String)
    (hfind : findUserById id db = some pre)
    (hu : u = none ∨ u = some "") (he : e = none ∨ e = some "")
    (hp : p = none ∨ p = some "") :
    updateUserProfile id { username := u, email := e, password := p } db =
      .ok (pre.toSafeObject, saveUser pre db) ∧
    findUserById id (saveUser pre db) = some pre := by
  have hpreid : pre.id = id := (findUserById_mem hfind).2
  have hwe : wantsChange e pre.email = false := by
    rcases he with rfl | rfl <;> rfl
  have hwu : wantsChange u pre.username = false := by
    rcases hu with rfl | rfl <;> rfl
  have hhp : hashIfTruthy p = p := by
    rcases hp with rfl | rfl <;> rfl
  have hju : jsOrElse u pre.username = pre.username := by
    rcases hu with rfl | rfl <;> rfl
  have hje : jsOrElse e pre.email = pre.email := by
    rcases he with rfl | rfl <;> rfl
  have hjp : jsOrElse p pre.password = pre.password := by
    rcases hp with rfl | rfl <;> rfl
  constructor
  · unfold updateUserProfile
    rw [hfind]
    simp only [hwe, Bool.false_and, Bool.false_eq_true, if_neg, hwu, ite_false]
    unfold repoUpdate
    rw [hfind]
    simp only [hhp, hju, hje, hjp]
    have hrec : (⟨id, pre.username, pre.email,
        pre.password, pre.createdAt⟩ : User) = pre := by
      rw [← hpreid]
    rw [hrec]
  · rw [← hpreid]
    exact findUserById_saveUser_self pre db

/-- C10 witness: updating user 1 with all three fields set to the empty
string returns the untouched record. -/
theorem updateProfile_empty_fields_noop_witness :
    updateUserProfile 1 { username := some "", email := some "", password := some "" }
        { users := [{ id := 1, username := "alice123", email := "a@x.com",
                      password := bcryptHash "Abcdef1", createdAt := 0 }],
          currentId := 2 } =
      .ok (({ id := 1, username := "alice123", email := "a@x.com",
              password := bcryptHash "Abcdef1", createdAt := 0 } : User).toSafeObject,
           saveUser { id := 1, username := "alice123", email := "a@x.com",
                      password := bcryptHash "Abcdef1", createdAt := 0 }
             { users := [{ id := 1, username := "alice123", email := "a@x.com",
                           password := bcryptHash "Abcdef1", createdAt := 0 }],
               currentId := 2 }) ∧
    findUserById 1 (saveUser { id := 1, username := "alice123", email := "a@x.com",
                               password := bcryptHash "Abcdef1", createdAt := 0 }
        { users := [{ id := 1, username := "alice123", email := "a@x.com",
                      password := bcryptHash "Abcdef1", createdAt := 0 }],
          currentId := 2 }) =
      some { id := 1, username := "alice123", email := "a@x.com",
             password := bcryptHash "Abcdef1", createdAt := 0 } :=
  updateProfile_empty_fields_noop 1 _ _ (some "") (some "") (some "")
    (by rfl) (Or.inr rfl) (Or.inr rfl) (Or.inr rfl)

/-- C6: a username-only profile update on an existing user — when it
succeeds — changes only the username: the stored record afterwards carries
the new username with the `email`, `password` digest and `createdAt` of the
record before the call, the returned projection is of that record, and no
other user record is touched. -/
theorem updateProfile_username_frame (id : Nat) (uname : String)
    (db db1 : InMemoryDatabase) (pre : User) (safe : SafeUser)
    (hfind : findUserById id db = some pre) (hne : uname ≠ "")
    (hok : updateUserProfile id
      { username := some uname, email := none, password := none } db =
        .ok (safe, db1)) :
    ∃ post : User, findUserById id db1 = some post ∧
      post.username = uname ∧ post.email = pre.email ∧
      post.password = pre.password ∧ post.createdAt = pre.createdAt ∧
      safe = post.toSafeObject ∧
      db1.users.length = db.users.length ∧
      ∀ v ∈ db1.users, v.id = id ∨ v ∈ db.users := by
  have hpreid : pre.id = id := (findUserById_mem hfind).2
  have hpremem : pre ∈ db.users := (findUserById_mem hfind).1
  unfold updateUserProfile at hok
  rw [hfind] at hok
  simp only [wantsChange, Bool.false_and, Bool.false_eq_true, if_neg, ite_false] at hok
  by_cases hb : ((!(uname == "") && !(uname == pre.username)) &&
      (findUserByUsername ((some uname).getD "") db).isSome) = true
  · rw [if_pos hb] at hok
    exact absurd hok (by simp)
  · rw [if_neg hb] at hok
    unfold repoUpdate at hok
    rw [hfind] at hok
    simp only [hashIfTruthy, jsOrElse, if_neg hne] at hok
    set post : User := (⟨id, uname, pre.email,
      pre.password, pre.createdAt⟩ : User) with hpost
    injection hok with hpair
    injection hpair with hsafe1 hdb11
    have hsafe : safe = post.toSafeObject := hsafe1.symm
    have hdb1 : db1 = saveUser post db := hdb11.symm
    have hany : db.users.any (fun v => v.id == post.id) = true := by
      refine List.any_eq_true.mpr ⟨pre, hpremem, ?_⟩
      simp [hpost, hpreid]
    refine ⟨post, ?_, rfl, rfl, rfl, rfl, hsafe, ?_, ?_⟩
    · rw [hdb1]
      have := findUserById_saveUser_self post db
      simpa using this
    · rw [hdb1]
      exact saveUser_users_length hany
    · intro v hv
      rw [hdb1] at hv
      rcases mem_saveUser hv with rfl | hmem
      · exact Or.inl rfl
      · exact Or.inr hmem

/-- C6 witness: renaming user 1 to `alicia` keeps email, digest and creation
time. -/
theorem updateProfile_username_frame_witness :
    ∃ post : User,
      findUserById 1
          { users := [{ id := 1, username := "alicia", email := "a@x.com",
                        password := bcryptHash "Abcdef1", createdAt := 0 }],
            currentId := 2 } = some post ∧
      post.username = "alicia" ∧ post.email = "a@x.com" ∧
      post.password = bcryptHash "Abcdef1" ∧ post.createdAt = 0 ∧
      ({ id := 1, username := "alicia", email := "a@x.com", createdAt := 0 } :
        SafeUser) = post.toSafeObject ∧
      ({ users := [{ id := 1, username := "alicia", email := "a@x.com",
                     password := bcryptHash "Abcdef1", createdAt := 0 }],
         currentId := 2 } : InMemoryDatabase).users.length =
        ({ users := [{ id := 1, username := "alice123", email := "a@x.com",
                       password := bcryptHash "Abcdef1", createdAt := 0 }],
           currentId := 2 } : InMemoryDatabase).users.length ∧
      ∀ v ∈ ({ users := [{ id := 1, username := "alicia", email := "a@x.com",
                           password := bcryptHash "Abcdef1", createdAt := 0 }],
               currentId := 2 } : InMemoryDatabase).users, v.id = 1 ∨
        v ∈ ({ users := [{ id := 1, username := "alice123", email := "a@x.com",
                           password := bcryptHash "Abcdef1", createdAt := 0 }],
               currentId := 2 } : InMemoryDatabase).users :=
  updateProfile_username_frame 1 "alicia" _ _
    { id := 1, username := "alice123", email := "a@x.com",
      password := bcryptHash "Abcdef1", createdAt := 0 }
    { id := 1, username := "alicia", email := "a@x.com", createdAt := 0 }
    (by rfl) (by decide) (by rfl)

/-- C3 counterexample: the Directory Service itself performs no self-delete
check. `UserService.deleteUser` takes only the target id — at a store holding
user 1, deleting user 1 "as user 1" goes straight through the service and
succeeds instead of failing `SelfDeleteNotAllowed`. -/
theorem serviceDeleteUser_no_self_check :
    serviceDeleteUser 1
        { users := [{ id := 1, username := "alice123", email := "a@x.com",
                      password := bcryptHash "Abcdef1", createdAt := 0 }],
          currentId := 2 } =
      .ok (({ id := 1, username := "alice123", email := "a@x.com",
              password := bcryptHash "Abcdef1", createdAt := 0 } : User).toSafeObject,
           { users := [], currentId := 2 }) := rfl

/-- C3 amended: `deleteUser(x, x)` fails with the self-delete error for every
`x` and every directory state — but the rule lives in each adapter: the REST
controller and the GraphQL resolver both reject it identically before
touching the store, while the Directory Service's own `deleteUser` carries no
requester id and performs no such check. -/
theorem adapters_reject_self_delete (x : Nat) (db : InMemoryDatabase) :
    controllerDeleteUser x x db = (.selfDeleteNotAllowed, db) ∧
    graphqlDeleteUser x x db = (.forbiddenSelfDelete, db) := by
  constructor
  · unfold controllerDeleteUser
    rw [if_pos (by simp)]
  · unfold graphqlDeleteUser
    rw [if_pos (by simp)]

/-- C1: the normalized-email uniqueness invariant is violated by the code.
`register` checks the raw submitted email (`emailExists(userData.email)`)
but stores the lowercased-and-trimmed form, so registering `a@x.com` and
then `A@X.com` (distinct raw strings) both succeed, leaving two live users
whose normalized emails coincide. -/
theorem register_breaks_normalized_email_uniqueness :
    ∃ (r1 r2 : AuthResult) (db1 db2 : InMemoryDatabase) (u v : User),
      register 0 ⟨"alice123", "a@x.com", "Abcdef1"⟩ emptyDb = .ok (r1, db1) ∧
      register 1 ⟨"bob_456", "A@X.com", "Abcdef1"⟩ db1 = .ok (r2, db2) ∧
      u ∈ db2.users ∧ v ∈ db2.users ∧ u.id ≠ v.id ∧
      normalizeEmail u.email = normalizeEmail v.email := by
  refine ⟨_, _, _, _,
    ⟨1, "alice123", "a@x.com", bcryptHash "Abcdef1", 0⟩,
    ⟨2, "bob_456", "a@x.com", bcryptHash "Abcdef1", 1⟩,
    rfl, rfl, ?_, ?_, ?_, rfl⟩
  · decide
  · decide
  · decide

theorem isInvalidDataErrorB_wrap (s : String) :
    isInvalidDataErrorB (.error ("Error registering user: Invalid data: " ++ s)) =
      true := by
  show ("Error registering user: Invalid data: ").data.isPrefixOf
    ("Error registering user: Invalid data: " ++ s).data = true
  rw [String.data_append]
  simp [ List.isPrefixOf_iff_prefix]

/-- C4 counterexample: `register` accepts an input that violates the claimed
charset and complexity rules — username `ab!de` (contains `!`), password
`abcdef` (no uppercase letter, no digit) — instead of rejecting it with a
`ValidationError`. -/
theorem register_accepts_charset_and_complexity_violations :
    usernameAlnumUnderscore "ab!de" = false ∧
    passwordHasRequiredClasses "abcdef" = false ∧
    ∃ (r : AuthResult) (db1 : InMemoryDatabase),
      register 0 ⟨"ab!de", "a@b.cd", "abcdef"⟩ emptyDb = .ok (r, db1) :=
  ⟨by decide, by decide, ⟨_, _, rfl⟩⟩

/-- C4 amended: `UserService.register` rejects with a `ValidationError`
exactly the inputs whose trimmed username is shorter than 3 characters,
whose email fails the `User.isValidEmail` regex, or whose password is
shorter than 6 characters — the letters-digits-underscore username rule and
the lowercase/uppercase/digit password rule are not part of the service's
validation (they live only in the REST middleware `validateRegister`). -/
theorem register_validation_is_exactly_three_rules (now : Nat)
    (input : RegisterInput) (db : InMemoryDatabase) :
    isInvalidDataErrorB (register now input db) = true ↔
      ¬ (3 ≤ (jsTrim input.username).length ∧ isValidEmail input.email = true ∧
          6 ≤ input.password.length) := by
  rw [← validate_isValid input]
  unfold register
  by_cases hv : (User.validate input).isValid = false
  · rw [if_pos hv]
    refine iff_of_true (isInvalidDataErrorB_wrap _) ?_
    rw [hv]
    simp
  · have hv1 : (User.validate input).isValid = true := by
      revert hv
      cases (User.validate input).isValid <;> simp
    rw [if_neg hv]
    by_cases he : (findUserByEmail input.email db).isSome = true
    · rw [if_pos he]
      exact iff_of_false (by decide) (by simp [hv1])
    · rw [if_neg he]
      by_cases hu : (findUserByUsername input.username db).isSome = true
      · rw [if_pos hu]
        exact iff_of_false (by decide) (by simp [hv1])
      · rw [if_neg hu]
        exact iff_of_false (by simp [isInvalidDataErrorB]) (by simp [hv1])

/-- C8 counterexample: a login in the same second as the registration returns
a token identical to the registration token — `jwt.sign` is deterministic in
the payload and the issued-at timestamp, so login does not always mint a
distinct token. -/
theorem login_token_can_equal_registration_token :
    ∃ (r : AuthResult) (db1 : InMemoryDatabase) (r2 : AuthResult),
      register 0 ⟨"alice123", "a@x.com", "Abcdef1"⟩ emptyDb = .ok (r, db1) ∧
      login 0 ⟨"a@x.com", "Abcdef1"⟩ db1 = .ok r2 ∧
      r2.token = r.token :=
  ⟨_, _, _, rfl, rfl, rfl⟩

theorem validate_email_ne_empty {input : RegisterInput}
    (h : (User.validate input).isValid = true) : input.email ≠ "" := by
  intro heq
  have h2 := ((validate_isValid input).mp h).2.1
  rw [heq] at h2
  exact absurd h2 (by decide)

theorem validate_password_ne_empty {input : RegisterInput}
    (h : (User.validate input).isValid = true) : input.password ≠ "" := by
  intro heq
  have h2 := ((validate_isValid input).mp h).2.2
  rw [heq] at h2
  simp at h2

theorem register_ok_shape (now : Nat) (input : RegisterInput)
    (db : InMemoryDatabase)
    (hvalid : (User.validate input).isValid = true)
    (husername : ∀ u ∈ db.users, u.username ≠ input.username)
    (hemail : ∀ u ∈ db.users, normalizeEmail u.email ≠ normalizeEmail input.email) :
    register now input db =
      .ok ({ user := (registeredUser now input db).toSafeObject,
             token := generateToken (registeredUser now input db) now },
           registerSuccessState now input db) := by
  have hnv : ¬ ((User.validate input).isValid = false) := by rw [hvalid]; simp
  have hfe : findUserByEmail input.email db = none := by
    refine findUserByEmail_eq_none (fun u hu heq => hemail u hu ?_)
    rw [heq]
  have hfu : findUserByUsername input.username db = none :=
    findUserByUsername_eq_none husername
  unfold register
  rw [if_neg hnv, hfe, hfu]
  rfl

theorem login_after_register_shape (now1 now2 : Nat) (input : RegisterInput)
    (db : InMemoryDatabase)
    (hvalid : (User.validate input).isValid = true)
    (hemail : ∀ u ∈ db.users, normalizeEmail u.email ≠ normalizeEmail input.email) :
    login now2 { email := input.email, password := input.password }
        (registerSuccessState now1 input db) =
      .ok { user := (registeredUser now1 input db).toSafeObject,
            token := generateToken (registeredUser now1 input db) now2 } := by
  have hene : input.email ≠ "" := validate_email_ne_empty hvalid
  have hpne : input.password ≠ "" := validate_password_ne_empty hvalid
  have hfind2 : findUserByEmail (normalizeEmail input.email)
      (registerSuccessState now1 input db) = some (registeredUser now1 input db) := by
    unfold registerSuccessState findUserByEmail
    apply find?_saveUser
    · show ((registeredUser now1 input db).email == normalizeEmail input.email) = true
      simp [registeredUser]
    · intro v hv
      have hv1 : v ∈ db.users := hv
      have hne1 : v.email ≠ normalizeEmail input.email := by
        intro heq
        apply hemail v hv1
        rw [heq, normalizeEmail_idem]
      simp [hne1]
  have hcmp : bcryptCompare input.password (registeredUser now1 input db).password =
      true := by
    simp [registeredUser, bcryptCompare]
  unfold login
  rw [if_neg (by rintro (h | h); exacts [hene h, hpne h]), hfind2]
  simp only [hcmp]
  rfl

/-- C2: for every syntactically valid registration input whose username and
normalized email are held by no live user, `register` succeeds, and an
immediately following `login` with the same email and password succeeds as
well, returning the public projection of the very same user together with a
token for that user's id. -/
theorem register_then_login_succeeds (now1 now2 : Nat) (input : RegisterInput)
    (db : InMemoryDatabase)
    (hvalid : (User.validate input).isValid = true)
    (husername : ∀ u ∈ db.users, u.username ≠ input.username)
    (hemail : ∀ u ∈ db.users, normalizeEmail u.email ≠ normalizeEmail input.email) :
    ∃ (r : AuthResult) (db1 : InMemoryDatabase) (tok : JwtToken),
      register now1 input db = .ok (r, db1) ∧
      login now2 { email := input.email, password := input.password } db1 =
        .ok { user := r.user, token := tok } ∧
      tok.id = r.user.id := by
  refine ⟨_, _, generateToken (registeredUser now1 input db) now2,
    register_ok_shape now1 input db hvalid husername hemail, ?_, rfl⟩
  exact login_after_register_shape now1 now2 input db hvalid hemail

/-- C2 witness: registering `alice123` on the empty store and logging in five
seconds later. -/
theorem register_then_login_succeeds_witness :
    ∃ (r : AuthResult) (db1 : InMemoryDatabase) (tok : JwtToken),
      register 0 ⟨"alice123", "a@x.com", "Abcdef1"⟩ emptyDb = .ok (r, db1) ∧
      login 5 { email := "a@x.com", password := "Abcdef1" } db1 =
        .ok { user := r.user, token := tok } ∧
      tok.id = r.user.id :=
  register_then_login_succeeds 0 5 ⟨"alice123", "a@x.com", "Abcdef1"⟩ emptyDb
    (by decide) (by simp [emptyDb]) (by simp [emptyDb])

/-- C8 amended: a successful login mints a token by signing the same payload
`{id, username, email}` afresh: it always decodes to the same id as the
registration token, and it is a distinct token exactly when the issuance
timestamp differs — two issuances within the same second yield the identical
token. -/
theorem login_token_same_id_fresh_iff_new_second (now1 now2 : Nat)
    (input : RegisterInput) (db : InMemoryDatabase)
    (hvalid : (User.validate input).isValid = true)
    (husername : ∀ u ∈ db.users, u.username ≠ input.username)
    (hemail : ∀ u ∈ db.users, normalizeEmail u.email ≠ normalizeEmail input.email) :
    ∃ (r r2 : AuthResult) (db1 : InMemoryDatabase),
      register now1 input db = .ok (r, db1) ∧
      login now2 { email := input.email, password := input.password } db1 = .ok r2 ∧
      r2.token.id = r.token.id ∧
      (r2.token = r.token ↔ now2 = now1) := by
  refine ⟨_, _, _,
    register_ok_shape now1 input db hvalid husername hemail,
    login_after_register_shape now1 now2 input db hvalid hemail, rfl, ?_⟩
  constructor
  · intro h
    have h2 := congrArg JwtToken.iat h
    simpa [generateToken] using h2
  · intro h
    rw [h]

/-- C8 amended witness: registration at second 0, login at second 5 — the
login token carries id 1 like the registration token and differs from it. -/
theorem login_token_same_id_fresh_iff_new_second_witness :
    ∃ (r r2 : AuthResult) (db1 : InMemoryDatabase),
      register 0 ⟨"alice123", "a@x.com", "Abcdef1"⟩ emptyDb = .ok (r, db1) ∧
      login 5 { email := "a@x.com", password := "Abcdef1" } db1 = .ok r2 ∧
      r2.token.id = r.token.id ∧
      (r2.token = r.token ↔ (5 : Nat) = 0) :=
  login_token_same_id_fresh_iff_new_second 0 5 ⟨"alice123", "a@x.com", "Abcdef1"⟩
    emptyDb (by decide) (by simp [emptyDb]) (by simp [emptyDb])

theorem register_state_cases (now : Nat) (input : RegisterInput)
    (db : InMemoryDatabase) :
    (∃ r, register now input db = .ok (r, registerSuccessState now input db)) ∨
    (∃ e, register now input db = .error e) := by
  unfold register
  by_cases h1 : (User.validate input).isValid = false
  · right; exact ⟨_, by rw [if_pos h1]⟩
  · rw [if_neg h1]
    by_cases h2 : ((findUserByEmail input.email db).isSome = true)
    · right; exact ⟨_, by rw [if_pos h2]⟩
    · rw [if_neg h2]
      by_cases h3 : ((findUserByUsername input.username db).isSome = true)
      · right; exact ⟨_, by rw [if_pos h3]⟩
      · left; exact ⟨_, by rw [if_neg h3]; rfl⟩

theorem update_ok_state {id : Nat} {upd : UpdateInput} {db : InMemoryDatabase}
    {s : SafeUser} {db1 : InMemoryDatabase}
    (h : updateUserProfile id upd db = .ok (s, db1)) :
    db1.currentId = db.currentId ∧ ∀ v ∈ db1.users, ∃ w ∈ db.users, w.id = v.id := by
  unfold updateUserProfile at h
  cases hfind : findUserById id db with
  | none => rw [hfind] at h; exact absurd h (by simp)
  | some existing =>
    rw [hfind] at h
    simp only [] at h
    split at h
    · exact absurd h (by simp)
    · split at h
      · exact absurd h (by simp)
      · unfold repoUpdate at h
        rw [hfind] at h
        simp only [] at h
        injection h with hp
        have hdb1 : db1 = saveUser
            (⟨id, jsOrElse upd.username existing.username,
              jsOrElse upd.email existing.email,
              jsOrElse (hashIfTruthy upd.password) existing.password,
              existing.createdAt⟩ : User) db := (congrArg Prod.snd hp).symm
        constructor
        · rw [hdb1, saveUser_currentId]
        · intro v hv
          rw [hdb1] at hv
          rcases mem_saveUser hv with rfl | hmem
          · exact ⟨existing, (findUserById_mem hfind).1, (findUserById_mem hfind).2⟩
          · exact ⟨v, hmem, rfl⟩

theorem delete_ok_state {id : Nat} {db : InMemoryDatabase} {s : SafeUser}
    {db1 : InMemoryDatabase} (h : serviceDeleteUser id db = .ok (s, db1)) :
    db1.currentId = db.currentId ∧ (∀ v ∈ db1.users, v ∈ db.users ∧ v.id ≠ id) ∧
    ∃ w ∈ db.users, w.id = id := by
  unfold serviceDeleteUser repoDelete at h
  cases hfind : findUserById id db with
  | none => rw [hfind] at h; exact absurd h (by simp)
  | some found =>
    rw [hfind] at h
    have hany : db.users.any (fun u => u.id == id) = true := by
      refine List.any_eq_true.mpr ⟨found, (findUserById_mem hfind).1, ?_⟩
      simp [(findUserById_mem hfind).2]
    simp only [dbDeleteUser, hany, if_pos] at h
    injection h with hp
    have hdb1 : db1 = { db with users := db.users.filter (fun u => !(u.id == id)) } :=
      (congrArg Prod.snd hp).symm
    refine ⟨by rw [hdb1], ?_, found, (findUserById_mem hfind).1,
      (findUserById_mem hfind).2⟩
    intro v hv
    rw [hdb1] at hv
    have hv1 := List.mem_filter.mp hv
    refine ⟨hv1.1, ?_⟩
    have := hv1.2
    simpa using this

theorem applyOp_state (db : InMemoryDatabase) (op : Op) :
    db.currentId ≤ (applyOp db op).currentId ∧
    ∀ v ∈ (applyOp db op).users, (∃ w ∈ db.users, w.id = v.id) ∨
      v.id = db.currentId := by
  cases op with
  | opRegister now input =>
    simp only [applyOp]
    cases hr : register now input db with
    | error e => exact ⟨Nat.le_refl _, fun v hv => Or.inl ⟨v, hv, rfl⟩⟩
    | ok rd =>
      obtain ⟨r, db1⟩ := rd
      rcases register_state_cases now input db with ⟨r2, hr2⟩ | ⟨e, hr2⟩
      · rw [hr] at hr2
        injection hr2 with hp
        have hdb1 : db1 = registerSuccessState now input db := congrArg Prod.snd hp
        constructor
        · rw [hdb1]
          unfold registerSuccessState
          rw [saveUser_currentId]
          exact Nat.le_succ _
        · intro v hv
          rw [hdb1] at hv
          unfold registerSuccessState at hv
          rcases mem_saveUser hv with rfl | hmem
          · exact Or.inr rfl
          · exact Or.inl ⟨v, hmem, rfl⟩
      · rw [hr] at hr2; cases hr2
  | opUpdate id upd =>
    simp only [applyOp]
    cases hu : updateUserProfile id upd db with
    | error e => exact ⟨Nat.le_refl _, fun v hv => Or.inl ⟨v, hv, rfl⟩⟩
    | ok sd =>
      obtain ⟨s, db1⟩ := sd
      obtain ⟨hcid, hids⟩ := update_ok_state hu
      exact ⟨hcid.ge, fun v hv => Or.inl (hids v hv)⟩
  | opDelete id =>
    simp only [applyOp]
    cases hd : serviceDeleteUser id db with
    | error e => exact ⟨Nat.le_refl _, fun v hv => Or.inl ⟨v, hv, rfl⟩⟩
    | ok sd =>
      obtain ⟨s, db1⟩ := sd
      obtain ⟨hcid, hsub, _⟩ := delete_ok_state hd
      exact ⟨hcid.ge, fun v hv => Or.inl ⟨v, (hsub v hv).1, rfl⟩⟩

theorem deadBelow_applyOp {x : Nat} {db : InMemoryDatabase} (op : Op)
    (h1 : ∀ u ∈ db.users, u.id ≠ x) (h2 : x < db.currentId) :
    (∀ u ∈ (applyOp db op).users, u.id ≠ x) ∧ x < (applyOp db op).currentId := by
  obtain ⟨hle, hids⟩ := applyOp_state db op
  refine ⟨?_, Nat.lt_of_lt_of_le h2 hle⟩
  intro v hv
  rcases hids v hv with ⟨w, hw, hwid⟩ | hvid
  · rw [← hwid]; exact h1 w hw
  · omega

theorem deadBelow_runOps {x : Nat} (ops : List Op) :
    ∀ db : InMemoryDatabase, (∀ u ∈ db.users, u.id ≠ x) → x < db.currentId →
      (∀ u ∈ (runOps db ops).users, u.id ≠ x) ∧ x < (runOps db ops).currentId := by
  induction ops with
  | nil => exact fun db h1 h2 => ⟨h1, h2⟩
  | cons op ops ih =>
    intro db h1 h2
    obtain ⟨h1a, h2a⟩ := deadBelow_applyOp op h1 h2
    exact ih (applyOp db op) h1a h2a

theorem opAssignedIds_cases (db : InMemoryDatabase) (op : Op) :
    opAssignedIds db op = [] ∨
    (opAssignedIds db op = [db.currentId] ∧
      (applyOp db op).currentId = db.currentId + 1) := by
  cases op with
  | opRegister now input =>
    simp only [opAssignedIds, applyOp]
    cases hr : register now input db with
    | error e => exact Or.inl rfl
    | ok rd =>
      obtain ⟨r, db1⟩ := rd
      rcases register_state_cases now input db with ⟨r2, hr2⟩ | ⟨e, hr2⟩
      · rw [hr] at hr2
        injection hr2 with hp
        have hdb1 : db1 = registerSuccessState now input db := congrArg Prod.snd hp
        refine Or.inr ⟨rfl, ?_⟩
        rw [hdb1]
        unfold registerSuccessState
        rw [saveUser_currentId]
      · rw [hr] at hr2; cases hr2
  | opUpdate id upd => exact Or.inl rfl
  | opDelete id => exact Or.inl rfl

theorem runAssignedIds_lb (ops : List Op) :
    ∀ (db : InMemoryDatabase) (y : Nat), y ∈ runAssignedIds db ops →
      db.currentId ≤ y := by
  induction ops with
  | nil => intro db y hy; exact absurd hy (by simp [runAssignedIds])
  | cons op ops ih =>
    intro db y hy
    rw [runAssignedIds] at hy
    rcases List.mem_append.mp hy with hl | hr
    · rcases opAssignedIds_cases db op with hnil | ⟨hone, _⟩
      · rw [hnil] at hl; exact absurd hl (by simp)
      · rw [hone] at hl
        have : y = db.currentId := by simpa using hl
        omega
    · have hle := (applyOp_state db op).1
      have := ih (applyOp db op) y hr
      omega

theorem runAssignedIds_chain (ops : List Op) :
    ∀ db : InMemoryDatabase, List.Chain' (· < ·) (runAssignedIds db ops) := by
  induction ops with
  | nil => intro db; simp [runAssignedIds]
  | cons op ops ih =>
    intro db
    rw [runAssignedIds]
    rcases opAssignedIds_cases db op with hnil | ⟨hone, hcid⟩
    · rw [hnil, List.nil_append]
      exact ih (applyOp db op)
    · rw [hone, List.singleton_append]
      refine List.chain'_cons'.mpr ⟨?_, ih (applyOp db op)⟩
      intro y hy
      have hmem : y ∈ runAssignedIds (applyOp db op) ops := List.mem_of_mem_head? hy
      have := runAssignedIds_lb ops (applyOp db op) y hmem
      omega

/-- C9: starting from any store whose live ids are all below the counter,
after `deleteUser` removes id `x`, along every further sequence of Directory
Service operations (no `clear()`): the ids handed out by `getNextId()` are
strictly increasing, `x` is never handed out again, `getById x` fails
`NotFound`, and `x` never reappears in `listAll()`. -/
theorem store_ids_monotonic_never_reused (db0 db : InMemoryDatabase) (x : Nat)
    (s : SafeUser) (ops : List Op)
    (hwf : ∀ u ∈ db0.users, u.id < db0.currentId)
    (hdel : serviceDeleteUser x db0 = .ok (s, db)) :
    List.Chain' (· < ·) (runAssignedIds db ops) ∧
    x ∉ runAssignedIds db ops ∧
    getUserById x (runOps db ops) = .error "Error fetching user: User not found" ∧
    ∀ u ∈ getAllUsers (runOps db ops), u.id ≠ x := by
  obtain ⟨hcid, hsub, w, hw, hwid⟩ := delete_ok_state hdel
  have h1 : ∀ u ∈ db.users, u.id ≠ x := fun u hu => (hsub u hu).2
  have h2 : x < db.currentId := by rw [hcid, ← hwid]; exact hwf w hw
  obtain ⟨hdead, hlt⟩ := deadBelow_runOps ops db h1 h2
  refine ⟨runAssignedIds_chain ops db, ?_, ?_, fun u hu => hdead u hu⟩
  · intro hx
    have := runAssignedIds_lb ops db x hx
    omega
  · unfold getUserById
    rw [findUserById_eq_none hdead]

/-- C9 witness: a store with users 1 and 2 and counter 3; after deleting user
2, a further registration draws the fresh id 3 (strictly above every earlier
id), never 2, and user 2 stays gone. -/
theorem store_ids_monotonic_never_reused_witness :
    List.Chain' (· < ·) (runAssignedIds
      { users := [{ id := 1, username := "alice123", email := "a@x.com",
                    password := bcryptHash "Abcdef1", createdAt := 0 }],
        currentId := 3 }
      [.opRegister 7 ⟨"carol_9", "c@x.com", "Abcdef1"⟩]) ∧
    2 ∉ runAssignedIds
      { users := [{ id := 1, username := "alice123", email := "a@x.com",
                    password := bcryptHash "Abcdef1", createdAt := 0 }],
        currentId := 3 }
      [.opRegister 7 ⟨"carol_9", "c@x.com", "Abcdef1"⟩] ∧
    getUserById 2 (runOps
      { users := [{ id := 1, username := "alice123", email := "a@x.com",
                    password := bcryptHash "Abcdef1", createdAt := 0 }],
        currentId := 3 }
      [.opRegister 7 ⟨"carol_9", "c@x.com", "Abcdef1"⟩]) =
      .error "Error fetching user: User not found" ∧
    ∀ u ∈ getAllUsers (runOps
      { users := [{ id := 1, username := "alice123", email := "a@x.com",
                    password := bcryptHash "Abcdef1", createdAt := 0 }],
        currentId := 3 }
      [.opRegister 7 ⟨"carol_9", "c@x.com", "Abcdef1"⟩]), u.id ≠ 2 :=
  store_ids_monotonic_never_reused
    { users := [{ id := 1, username := "alice123", email := "a@x.com",
                  password := bcryptHash "Abcdef1", createdAt := 0 },
                { id := 2, username := "bob_456", email := "b@x.com",
                  password := bcryptHash "Abcdef1", createdAt := 0 }],
      currentId := 3 }
    _ 2 { id := 2, username := "bob_456", email := "b@x.com", createdAt := 0 }
    [.opRegister 7 ⟨"carol_9", "c@x.com", "Abcdef1"⟩]
    (by decide) (by rfl)

end UserDirectory
